import Mathlib

set_option maxHeartbeats 1000000
set_option linter.unusedVariables false

/-
Shallow embedding of the kubernetes-mesos scheduler core:
 * the pod-task registry, status reducer and finished-task ring
   (package scheduler, file pod_task registry source);
 * the scheduler configuration loader (pkg/scheduler/config/config.go).

Go maps are embedded as functions `String → Option α` with pointwise
insert/delete; wall-clock instants (`time.Now()`) are threaded in as an
explicit `now : Nat` parameter; Go panics (explicit `panic(...)` calls and
nil-pointer dereferences) are surfaced as the error branch of `Except`.
-/

/-- StateType of a PodTask: StatePending, StateRunning, StateFinished, StateUnknown. -/
inductive StateType
  | pending
  | running
  | finished
  | unknown
  deriving DecidableEq, Repr

/-- api.PodPhase; the status reducer only ever writes PodRunning. -/
inductive PodPhase
  | podWaiting
  | podRunning
  | podTerminated
  deriving DecidableEq, Repr

/-- Entry of api.PodInfo (docker.Container); the core reads only the PodIP field. -/
structure ContainerInfo where
  PodIP : String
  deriving DecidableEq, Repr

/-- api.PodInfo: a mapping from container name to container info, embedded as an
association list (the reducer only performs a single lookup on it). -/
abbrev PodInfo := List (String × ContainerInfo)

/-- api.PodStatus: the mutable status sub-object of a pod; only the fields the
core reads or writes are embedded. -/
structure PodStatus where
  Phase : PodPhase
  Info : PodInfo
  PodIP : String
  deriving DecidableEq, Repr

/-- api.Pod restricted to the fields the core touches. -/
structure Pod where
  Name : String
  Status : PodStatus
  deriving DecidableEq, Repr

/-- PodTask: one attempt to run one pod.  `deleted` embeds `task.Has(Deleted)`;
the three time fields are instants (Nat ticks). -/
structure PodTask where
  ID : String
  podKey : String
  Pod : Pod
  State : StateType
  launchTime : Nat
  bindTime : Nat
  UpdatedTime : Nat
  deleted : Bool
  deriving DecidableEq, Repr

/-- mesos.TaskState: the seven states the reducer switches on. -/
inductive MesosTaskState
  | staging
  | starting
  | running
  | finished
  | failed
  | killed
  | lost
  deriving DecidableEq, Repr

/-- mesos.TaskStatus restricted to the fields the core reads (taskId, state, data).
`data = none` embeds a nil Data blob; `data = some none` embeds bytes on which
json.Unmarshal fails; `data = some (some info)` embeds bytes decoding to `info`. -/
structure TaskStatus where
  taskId : String
  state : MesosTaskState
  data : Option (Option PodInfo)
  deriving DecidableEq, Repr

/-- Pointwise insert on a Go map embedded as a function. -/
def mapInsert {α : Type} (m : String → Option α) (k : String) (v : α) :
    String → Option α :=
  fun q => if q = k then some v else m q

/-- Pointwise delete on a Go map embedded as a function. -/
def mapDelete {α : Type} (m : String → Option α) (k : String) :
    String → Option α :=
  fun q => if q = k then none else m q

/-- The error kinds of the spec's taxonomy that can flow through register's
error argument. -/
inductive SchedErr
  | duplicate
  | other (msg : String)
  deriving DecidableEq, Repr

/-- A Go panic escaping a reducer handler: the explicit
`panic("Pending task finished...")` or a nil-pointer dereference. -/
inductive GoPanic
  | impossibleTransition
  | nilDereference
  deriving DecidableEq, Repr

/-- container/ring of task-ids: fixed slot list plus current cursor position.
`ring.New(n)` yields `⟨List.replicate n none, 0⟩`. -/
structure FinishedRing where
  data : List (Option String)
  pos : Nat
  deriving DecidableEq, Repr

/-- inMemoryTaskRegistry: the two tables and the finished-task ring (the
RWMutex is serialization-only and has no sequential content). -/
structure InMemoryTaskRegistry where
  taskRegistry : String → Option PodTask
  tasksFinished : FinishedRing
  podToTask : String → Option String

/-- NewInMemoryTaskRegistry with an explicit ring capacity
(the source uses defaultFinishedTasksSize = 1024). -/
def NewInMemoryTaskRegistry (capacity : Nat) : InMemoryTaskRegistry :=
  { taskRegistry := fun _ => none
    tasksFinished := ⟨List.replicate capacity none, 0⟩
    podToTask := fun _ => none }

/-- `_get`: look up a task, returning `(nil, StateUnknown)` when absent. -/
def InMemoryTaskRegistry.get (k : InMemoryTaskRegistry) (taskId : String) :
    Option PodTask × StateType :=
  match k.taskRegistry taskId with
  | some task => (some task, task.State)
  | none => (none, StateType.unknown)

/-- register: when the piped-through error is nil, insert into both tables
(no duplicate check appears in the source); otherwise return unchanged. -/
def InMemoryTaskRegistry.register (k : InMemoryTaskRegistry) (task : PodTask)
    (err : Option SchedErr) :
    InMemoryTaskRegistry × PodTask × Option SchedErr :=
  match err with
  | none =>
    ({ k with
        podToTask := mapInsert k.podToTask task.podKey task.ID
        taskRegistry := mapInsert k.taskRegistry task.ID task },
      task, none)
  | some e => (k, task, some e)

/-- unregister: delete both entries, unconditionally and silently. -/
def InMemoryTaskRegistry.unregister (k : InMemoryTaskRegistry) (task : PodTask) :
    InMemoryTaskRegistry :=
  { k with
      podToTask := mapDelete k.podToTask task.podKey
      taskRegistry := mapDelete k.taskRegistry task.ID }

/-- recordFinishedTask: advance the ring cursor; if the overwritten slot held a
task-id whose task is still registered with state Finished, expunge it from the
task table; then store the new id in the slot. -/
def InMemoryTaskRegistry.recordFinishedTask (k : InMemoryTaskRegistry)
    (taskId : String) : InMemoryTaskRegistry :=
  let r := k.tasksFinished
  let slot := (r.pos + 1) % r.data.length
  let k1 :=
    match r.data.getD slot none with
    | some gctaskId =>
      match k.taskRegistry gctaskId with
      | some gctask =>
        if gctask.State = StateType.finished then
          { k with taskRegistry := mapDelete k.taskRegistry gctaskId }
        else k
      | none => k
    | none => k
  { k1 with tasksFinished := ⟨r.data.set slot (some taskId), slot⟩ }

/-- handleTaskStaging: log only ("Not implemented: task staging"). -/
def InMemoryTaskRegistry.handleTaskStaging (k : InMemoryTaskRegistry)
    (task : Option PodTask) (state : StateType) (status : TaskStatus) (now : Nat) :
    Except GoPanic (InMemoryTaskRegistry × Option PodTask) :=
  Except.ok (k, task)

/-- handleTaskStarting: on a Pending task, stamp UpdatedTime and bindTime;
every other prior state is a warning-log no-op.  The Pending branch
dereferences the task pointer. -/
def InMemoryTaskRegistry.handleTaskStarting (k : InMemoryTaskRegistry)
    (task : Option PodTask) (state : StateType) (status : TaskStatus) (now : Nat) :
    Except GoPanic (InMemoryTaskRegistry × Option PodTask) :=
  match state with
  | StateType.pending =>
    match task with
    | some t =>
      let t' := { t with UpdatedTime := now, bindTime := now }
      Except.ok
        ({ k with taskRegistry := mapInsert k.taskRegistry status.taskId t' },
          some t')
    | none => Except.error GoPanic.nilDereference
  | _ => Except.ok (k, task)

/-- fillRunningPodInfo: always set pod phase to Running; when the data blob is
present and decodes, install the pod-info and copy the pod-IP from the
container named "net" when that container exists with a non-empty PodIP;
absent or undecodable data only logs. -/
def fillRunningPodInfo (task : PodTask) (taskStatus : TaskStatus) : PodTask :=
  let t1 := { task with Pod.Status.Phase := PodPhase.podRunning }
  match taskStatus.data with
  | some (some info) =>
    let t2 := { t1 with Pod.Status.Info := info }
    match (info.find? (fun p => p.1 = "net")).map Prod.snd with
    | some netContainerInfo =>
      if netContainerInfo.PodIP ≠ "" then
        { t2 with Pod.Status.PodIP := netContainerInfo.PodIP }
      else t2
    | none => t2
  | some none => t1
  | none => t1

/-- handleTaskRunning: Pending tasks transition to Running with pod-info
filled in; Running tasks only have UpdatedTime touched; Finished tasks are a
warning no-op.  The default ("discarded") branch formats `task.ID` in its
warning, a nil-pointer dereference when the task is unknown. -/
def InMemoryTaskRegistry.handleTaskRunning (k : InMemoryTaskRegistry)
    (task : Option PodTask) (state : StateType) (status : TaskStatus) (now : Nat) :
    Except GoPanic (InMemoryTaskRegistry × Option PodTask) :=
  match state with
  | StateType.pending =>
    match task with
    | some t =>
      let t' := fillRunningPodInfo { t with UpdatedTime := now } status
      let t2 := { t' with State := StateType.running }
      Except.ok
        ({ k with taskRegistry := mapInsert k.taskRegistry status.taskId t2 },
          some t2)
    | none => Except.error GoPanic.nilDereference
  | StateType.running =>
    match task with
    | some t =>
      let t' := { t with UpdatedTime := now }
      Except.ok
        ({ k with taskRegistry := mapInsert k.taskRegistry status.taskId t' },
          some t')
    | none => Except.error GoPanic.nilDereference
  | StateType.finished => Except.ok (k, task)
  | StateType.unknown =>
    match task with
    | some _ => Except.ok (k, task)
    | none => Except.error GoPanic.nilDereference

/-- handleTaskFinished: Pending panics ("Pending task finished, this couldn't
happen"); Running transitions to Finished, drops the podToTask entry and
records the id in the finished ring; Finished and unknown are warning no-ops. -/
def InMemoryTaskRegistry.handleTaskFinished (k : InMemoryTaskRegistry)
    (task : Option PodTask) (state : StateType) (status : TaskStatus) (now : Nat) :
    Except GoPanic (InMemoryTaskRegistry × Option PodTask) :=
  match state with
  | StateType.pending => Except.error GoPanic.impossibleTransition
  | StateType.running =>
    match task with
    | some t =>
      let k1 := { k with podToTask := mapDelete k.podToTask t.podKey }
      let t' := { t with State := StateType.finished, UpdatedTime := now }
      let k2 := { k1 with taskRegistry := mapInsert k1.taskRegistry status.taskId t' }
      Except.ok (k2.recordFinishedTask t.ID, some t')
    | none => Except.error GoPanic.nilDereference
  | StateType.finished => Except.ok (k, task)
  | StateType.unknown => Except.ok (k, task)

/-- handleTaskFailed: a Pending or Running task is deleted from both tables;
all other prior states leave everything unchanged. -/
def InMemoryTaskRegistry.handleTaskFailed (k : InMemoryTaskRegistry)
    (task : Option PodTask) (state : StateType) (status : TaskStatus) :
    Except GoPanic (InMemoryTaskRegistry × Option PodTask) :=
  match state with
  | StateType.pending | StateType.running =>
    match task with
    | some t =>
      Except.ok
        ({ k with
            taskRegistry := mapDelete k.taskRegistry t.ID
            podToTask := mapDelete k.podToTask t.podKey },
          task)
    | none => Except.error GoPanic.nilDereference
  | _ => Except.ok (k, task)

/-- handleTaskKilled: same table mutation as handleTaskFailed (the deferred
log-level choice on `task.Has(Deleted)` has no sequential effect). -/
def InMemoryTaskRegistry.handleTaskKilled (k : InMemoryTaskRegistry)
    (task : Option PodTask) (state : StateType) (status : TaskStatus) :
    Except GoPanic (InMemoryTaskRegistry × Option PodTask) :=
  match state with
  | StateType.pending | StateType.running =>
    match task with
    | some t =>
      Except.ok
        ({ k with
            taskRegistry := mapDelete k.taskRegistry t.ID
            podToTask := mapDelete k.podToTask t.podKey },
          task)
    | none => Except.error GoPanic.nilDereference
  | _ => Except.ok (k, task)

/-- handleTaskLost: same table mutation as handleTaskFailed. -/
def InMemoryTaskRegistry.handleTaskLost (k : InMemoryTaskRegistry)
    (task : Option PodTask) (state : StateType) (status : TaskStatus) :
    Except GoPanic (InMemoryTaskRegistry × Option PodTask) :=
  match state with
  | StateType.running | StateType.pending =>
    match task with
    | some t =>
      Except.ok
        ({ k with
            taskRegistry := mapDelete k.taskRegistry t.ID
            podToTask := mapDelete k.podToTask t.podKey },
          task)
    | none => Except.error GoPanic.nilDereference
  | _ => Except.ok (k, task)

/-- updateStatus: look up the task, dispatch on the mesos state, and return the
(possibly mutated) task together with the state observed before transition. -/
def InMemoryTaskRegistry.updateStatus (k : InMemoryTaskRegistry)
    (status : TaskStatus) (now : Nat) :
    Except GoPanic (InMemoryTaskRegistry × Option PodTask × StateType) :=
  let taskId := status.taskId
  let ts := k.get taskId
  let task := ts.1
  let state := ts.2
  let res :=
    match status.state with
    | MesosTaskState.staging => k.handleTaskStaging task state status now
    | MesosTaskState.starting => k.handleTaskStarting task state status now
    | MesosTaskState.running => k.handleTaskRunning task state status now
    | MesosTaskState.finished => k.handleTaskFinished task state status now
    | MesosTaskState.failed => k.handleTaskFailed task state status
    | MesosTaskState.killed => k.handleTaskKilled task state status
    | MesosTaskState.lost => k.handleTaskLost task state status
  res.map (fun p => (p.1, p.2, state))

/-- Run a sequence of updateStatus calls (each with its own clock tick),
stopping at the first panic. -/
def runUpdates (k : InMemoryTaskRegistry) :
    List (TaskStatus × Nat) → Except GoPanic InMemoryTaskRegistry
  | [] => Except.ok k
  | s :: rest =>
    match k.updateStatus s.1 s.2 with
    | Except.ok p => runUpdates p.1 rest
    | Except.error e => Except.error e

/-
Scheduler configuration (pkg/scheduler/config/config.go).  Durations are
embedded as nanosecond counts (Nat); the gcfg key-value layer is embedded as
the list of (key, value) pairs of the single [scheduler] section.
-/

/-- Config: the eleven tunables; WrappedDuration fields carry nanoseconds. -/
structure Config where
  OfferTTL : Nat
  OfferLingerTTL : Nat
  ListenerDelay : Nat
  UpdatesBacklog : Nat
  FrameworkIdRefreshInterval : Nat
  InitialImplicitReconciliationDelay : Nat
  ExplicitReconciliationMaxBackoff : Nat
  ExplicitReconciliationAbortTimeout : Nat
  InitialPodBackoff : Nat
  MaxPodBackoff : Nat
  HttpHandlerTimeout : Nat
  deriving DecidableEq, Repr

/-- ConfigWrapper: the gcfg target struct with its Scheduler section. -/
structure ConfigWrapper where
  Scheduler : Config
  deriving DecidableEq, Repr

/-- SetDefaults: install the eleven Default* constants (values in ns). -/
def Config.SetDefaults (c : Config) : Config :=
  { OfferTTL := 5000000000
    OfferLingerTTL := 120000000000
    ListenerDelay := 1000000000
    UpdatesBacklog := 2048
    FrameworkIdRefreshInterval := 30000000000
    InitialImplicitReconciliationDelay := 15000000000
    ExplicitReconciliationMaxBackoff := 120000000000
    ExplicitReconciliationAbortTimeout := 30000000000
    InitialPodBackoff := 1000000000
    MaxPodBackoff := 60000000000
    HttpHandlerTimeout := 10000000000 }

/-- CreateDefaultConfig: a zero Config with SetDefaults applied. -/
def CreateDefaultConfig : Config :=
  Config.SetDefaults ⟨0, 0, 0, 0, 0, 0, 0, 0, 0, 0, 0⟩

/-- Nanosecond multiplier of a Go duration unit string. -/
def durationUnit : String → Option Nat
  | "ns" => some 1
  | "us" => some 1000
  | "ms" => some 1000000
  | "s" => some 1000000000
  | "m" => some 60000000000
  | "h" => some 3600000000000
  | _ => none

/-- Decimal value of a non-empty all-digit character list. -/
def parseDecimal (cs : List Char) : Option Nat :=
  if cs = [] then none
  else if cs.all Char.isDigit then
    some (cs.foldl (fun a c => a * 10 + (c.toNat - 48)) 0)
  else none

/-- Go time.ParseDuration (library dependency of WrappedDuration.UnmarshalText),
modelled on the decimal-integer-with-single-unit forms the configuration
surface uses ("5s", "2m", "7s", ...). -/
def parseDuration (s : String) : Option Nat :=
  let ds := s.data.takeWhile Char.isDigit
  let rest := s.data.dropWhile Char.isDigit
  match parseDecimal ds with
  | some n =>
    match durationUnit (String.mk rest) with
    | some mult => some (n * mult)
    | none => none
  | none => none

/-- The gcfg key-value lines of the [scheduler] section of a config file. -/
abbrev ConfigFile := List (String × String)

/-- Assign one [scheduler] key to its Config field, using the exact gcfg tags
of the source (including the misspelled `explicit-reconciliantion-*` tags);
an unknown key or an unparsable value is a load error. -/
def setSchedulerField (c : Config) (key val : String) : Option Config :=
  if key = "offer-ttl" then
    (parseDuration val).map (fun d => { c with OfferTTL := d })
  else if key = "offer-linger-ttl" then
    (parseDuration val).map (fun d => { c with OfferLingerTTL := d })
  else if key = "listener-delay" then
    (parseDuration val).map (fun d => { c with ListenerDelay := d })
  else if key = "updates-backlog" then
    (parseDecimal val.data).map (fun n => { c with UpdatesBacklog := n })
  else if key = "framework-id-refresh-interval" then
    (parseDuration val).map (fun d => { c with FrameworkIdRefreshInterval := d })
  else if key = "initial-implicit-reconciliation-delay" then
    (parseDuration val).map (fun d => { c with InitialImplicitReconciliationDelay := d })
  else if key = "explicit-reconciliantion-max-backoff" then
    (parseDuration val).map (fun d => { c with ExplicitReconciliationMaxBackoff := d })
  else if key = "explicit-reconciliantion-abort-timeout" then
    (parseDuration val).map (fun d => { c with ExplicitReconciliationAbortTimeout := d })
  else if key = "initial-pod-backoff" then
    (parseDuration val).map (fun d => { c with InitialPodBackoff := d })
  else if key = "max-pod-backoff" then
    (parseDuration val).map (fun d => { c with MaxPodBackoff := d })
  else if key = "http-handler-timeout" then
    (parseDuration val).map (fun d => { c with HttpHandlerTimeout := d })
  else none

/-- gcfg.ReadInto (library dependency): fold the section's key-value pairs
into the wrapper, failing the whole load on the first bad pair. -/
def gcfgReadInto (w : ConfigWrapper) : ConfigFile → Except String ConfigWrapper
  | [] => Except.ok w
  | (key, val) :: rest =>
    match setSchedulerField w.Scheduler key val with
    | some c => gcfgReadInto ⟨c⟩ rest
    | none => Except.error "bad config"

/-- Config.Read: build a wrapper seeded from the receiver, run gcfg.ReadInto on
it, and propagate only the error — the parsed wrapper is a discarded local
(config.go:81-89 never copies `wrapper.Scheduler` back into `*c`), so the
resulting Config is the receiver unchanged. -/
def Config.Read (c : Config) (configReader : Option ConfigFile) :
    Except String Config :=
  let wrapper : ConfigWrapper := ⟨c⟩
  match configReader with
  | some r =>
    match gcfgReadInto wrapper r with
    | Except.error e => Except.error e
    | Except.ok _ => Except.ok c
  | none => Except.ok c

/-
Concrete fixtures used by counterexamples and witnesses.
-/

/-- A pod with empty status, for concrete instances. -/
def samplePod (name : String) : Pod :=
  ⟨name, ⟨PodPhase.podWaiting, [], ""⟩⟩

/-- A task with the given id, pod key and state, zero clocks, no flags. -/
def sampleTask (id key : String) (st : StateType) : PodTask :=
  ⟨id, key, samplePod id, st, 0, 0, 0, false⟩

/-- Registry holding task "t1" for pod key "pk1" (capacity-2 ring). -/
def regDup : InMemoryTaskRegistry :=
  ((NewInMemoryTaskRegistry 2).register (sampleTask "t1" "pk1" StateType.pending) none).1

/-- Registry holding task "other" for pod key "pk" (capacity-2 ring). -/
def regOther : InMemoryTaskRegistry :=
  ((NewInMemoryTaskRegistry 2).register (sampleTask "other" "pk" StateType.pending) none).1

/-- An empty registry with the default ring capacity. -/
def emptyReg : InMemoryTaskRegistry := NewInMemoryTaskRegistry 1024

/-- C1: counterexample — registering a second task whose id "t1" is already a
key of the tasks table yields a nil error (no Duplicate) and overwrites the
table entry, refuting the claim at this input. -/
theorem register_duplicate_cex :
    ¬ ((regDup.register (sampleTask "t1" "pk2" StateType.pending) none).2.2
          = some SchedErr.duplicate
        ∧ (regDup.register (sampleTask "t1" "pk2" StateType.pending) none).1.taskRegistry "t1"
          = regDup.taskRegistry "t1") := by
  intro h
  have h1 := h.1
  rw [show (regDup.register (sampleTask "t1" "pk2" StateType.pending) none).2.2 = none
        from rfl] at h1
  exact Option.noConfusion h1

/-- C1 (amended): register with a nil error performs no duplicate detection:
even when task.id is already a key of the tasks table, or task.podKey already
a key of the podToTask table, it returns a nil error and overwrites the
entries for task.id and task.podKey, leaving every other key of both tables
unchanged. -/
theorem register_overwrites_duplicate (k : InMemoryTaskRegistry) (t : PodTask)
    (hdup : (∃ t0, k.taskRegistry t.ID = some t0)
      ∨ (∃ i0, k.podToTask t.podKey = some i0)) :
    (k.register t none).2.2 = none
    ∧ (k.register t none).1.taskRegistry t.ID = some t
    ∧ (k.register t none).1.podToTask t.podKey = some t.ID
    ∧ (∀ q, q ≠ t.ID → (k.register t none).1.taskRegistry q = k.taskRegistry q)
    ∧ (∀ q, q ≠ t.podKey → (k.register t none).1.podToTask q = k.podToTask q) := by
  refine ⟨rfl, ?_, ?_, ?_, ?_⟩
  · simp [InMemoryTaskRegistry.register, mapInsert]
  · simp [InMemoryTaskRegistry.register, mapInsert]
  · intro q hq
    simp [InMemoryTaskRegistry.register, mapInsert, hq]
  · intro q hq
    simp [InMemoryTaskRegistry.register, mapInsert, hq]

/-- C1 witness: the amended statement applied to a registration whose pod key
"pk" is already bound to the different task-id "other" (the podKey-duplicate
disjunct); the registration overwrites that binding and returns a nil error. -/
theorem register_overwrites_duplicate_witness :
    regOther.podToTask "pk" = some "other"
    ∧ ((regOther.register (sampleTask "t1" "pk" StateType.pending) none).2.2 = none
      ∧ (regOther.register (sampleTask "t1" "pk" StateType.pending) none).1.taskRegistry "t1"
          = some (sampleTask "t1" "pk" StateType.pending)
      ∧ (regOther.register (sampleTask "t1" "pk" StateType.pending) none).1.podToTask "pk"
          = some "t1"
      ∧ (∀ q, q ≠ "t1" →
          (regOther.register (sampleTask "t1" "pk" StateType.pending) none).1.taskRegistry q
            = regOther.taskRegistry q)
      ∧ (∀ q, q ≠ "pk" →
          (regOther.register (sampleTask "t1" "pk" StateType.pending) none).1.podToTask q
            = regOther.podToTask q)) :=
  ⟨rfl, register_overwrites_duplicate regOther (sampleTask "t1" "pk" StateType.pending)
      (Or.inr ⟨"other", rfl⟩)⟩

/-- C8: counterexample — with podToTask already holding "pk" ↦ "other",
registering and then unregistering a fresh task "t1" with the same pod key
erases that pre-existing entry, so the tables do not return to their prior
contents. -/
theorem register_unregister_cex :
    ¬ (∀ q : String,
        (((regOther.register (sampleTask "t1" "pk" StateType.pending) none).1.unregister
            (sampleTask "t1" "pk" StateType.pending)).podToTask q = regOther.podToTask q
          ∧ (((regOther.register (sampleTask "t1" "pk" StateType.pending) none).1.unregister
            (sampleTask "t1" "pk" StateType.pending)).taskRegistry q
              = regOther.taskRegistry q))) := by
  intro h
  have h1 := (h "pk").1
  rw [show (((regOther.register (sampleTask "t1" "pk" StateType.pending) none).1.unregister
      (sampleTask "t1" "pk" StateType.pending)).podToTask "pk") = none from rfl,
    show regOther.podToTask "pk" = some "other" from rfl] at h1
  exact Option.noConfusion h1

/-- C8 (amended): when task.id is not yet a key of the tasks table and
task.podKey not yet a key of the podToTask table, register(t, nil) followed by
unregister(t) restores both tables exactly. -/
theorem register_unregister_roundtrip (k : InMemoryTaskRegistry) (t : PodTask)
    (h1 : k.taskRegistry t.ID = none) (h2 : k.podToTask t.podKey = none) :
    ((k.register t none).1.unregister t).taskRegistry = k.taskRegistry
    ∧ ((k.register t none).1.unregister t).podToTask = k.podToTask := by
  constructor
  · funext q
    by_cases hq : q = t.ID
    · subst hq
      simp [InMemoryTaskRegistry.register, InMemoryTaskRegistry.unregister,
        mapInsert, mapDelete, h1]
    · simp [InMemoryTaskRegistry.register, InMemoryTaskRegistry.unregister,
        mapInsert, mapDelete, hq]
  · funext q
    by_cases hq : q = t.podKey
    · subst hq
      simp [InMemoryTaskRegistry.register, InMemoryTaskRegistry.unregister,
        mapInsert, mapDelete, h2]
    · simp [InMemoryTaskRegistry.register, InMemoryTaskRegistry.unregister,
        mapInsert, mapDelete, hq]

/-- C8 witness: the amended round-trip on the empty registry. -/
theorem register_unregister_roundtrip_witness :
    emptyReg.taskRegistry "t1" = none
    ∧ emptyReg.podToTask "pk" = none
    ∧ (((emptyReg.register (sampleTask "t1" "pk" StateType.pending) none).1.unregister
          (sampleTask "t1" "pk" StateType.pending)).taskRegistry = emptyReg.taskRegistry
      ∧ ((emptyReg.register (sampleTask "t1" "pk" StateType.pending) none).1.unregister
          (sampleTask "t1" "pk" StateType.pending)).podToTask = emptyReg.podToTask) :=
  ⟨rfl, rfl,
    register_unregister_roundtrip emptyReg (sampleTask "t1" "pk" StateType.pending) rfl rfl⟩

/-- C9: unregister deletes the podToTask entry at task.podKey unconditionally —
whatever task-id that entry currently maps to — and leaves every other pod key
unchanged. -/
theorem unregister_unlinks_unconditionally (k : InMemoryTaskRegistry) (t : PodTask) :
    (k.unregister t).podToTask t.podKey = none
    ∧ (∀ q, q ≠ t.podKey → (k.unregister t).podToTask q = k.podToTask q) := by
  constructor
  · simp [InMemoryTaskRegistry.unregister, mapDelete]
  · intro q hq
    simp [InMemoryTaskRegistry.unregister, mapDelete, hq]

/-- C9 witness: unregistering a stale task "t1" for pod key "pk" unlinks the
active mapping "pk" ↦ "other". -/
theorem unregister_unlinks_unconditionally_witness :
    regOther.podToTask "pk" = some "other"
    ∧ ((regOther.unregister (sampleTask "t1" "pk" StateType.pending)).podToTask "pk" = none
      ∧ (∀ q, q ≠ "pk" →
          (regOther.unregister (sampleTask "t1" "pk" StateType.pending)).podToTask q
            = regOther.podToTask q)) :=
  ⟨rfl, unregister_unlinks_unconditionally regOther (sampleTask "t1" "pk" StateType.pending)⟩

/-- C2: at an unknown task-id the six states other than TASK_RUNNING are
no-ops returning (nil, Unknown); TASK_RUNNING instead dereferences the nil
task pointer while formatting its warning log (`task.ID`) and panics. -/
theorem updateStatus_unknown_task_eval :
    emptyReg.updateStatus ⟨"u", MesosTaskState.staging, none⟩ 0
        = Except.ok (emptyReg, none, StateType.unknown)
    ∧ emptyReg.updateStatus ⟨"u", MesosTaskState.starting, none⟩ 0
        = Except.ok (emptyReg, none, StateType.unknown)
    ∧ emptyReg.updateStatus ⟨"u", MesosTaskState.finished, none⟩ 0
        = Except.ok (emptyReg, none, StateType.unknown)
    ∧ emptyReg.updateStatus ⟨"u", MesosTaskState.failed, none⟩ 0
        = Except.ok (emptyReg, none, StateType.unknown)
    ∧ emptyReg.updateStatus ⟨"u", MesosTaskState.killed, none⟩ 0
        = Except.ok (emptyReg, none, StateType.unknown)
    ∧ emptyReg.updateStatus ⟨"u", MesosTaskState.lost, none⟩ 0
        = Except.ok (emptyReg, none, StateType.unknown)
    ∧ emptyReg.updateStatus ⟨"u", MesosTaskState.running, none⟩ 0
        = Except.error GoPanic.nilDereference :=
  ⟨rfl, rfl, rfl, rfl, rfl, rfl, rfl⟩

/-- C3: gcfg does parse the override 7s for offer-ttl into the wrapper, but
Config.Read discards the wrapper, returning the receiver that still holds
the 5s default. -/
theorem config_read_discards_overrides :
    (gcfgReadInto ⟨CreateDefaultConfig⟩ [("offer-ttl", "7s")]).toOption.map
        (fun w => w.Scheduler.OfferTTL) = some 7000000000
    ∧ (Config.Read CreateDefaultConfig (some [("offer-ttl", "7s")])).toOption
        = some CreateDefaultConfig
    ∧ CreateDefaultConfig.OfferTTL = 5000000000 :=
  ⟨by decide, by decide, rfl⟩

/-- C4: delivering a FINISHED status for a task in state Pending panics with
ImpossibleTransition. -/
theorem pending_finished_panics (k : InMemoryTaskRegistry)
    (id : String) (t : PodTask) (d : Option (Option PodInfo)) (now : Nat)
    (hmem : k.taskRegistry id = some t) (hst : t.State = StateType.pending) :
    k.updateStatus ⟨id, MesosTaskState.finished, d⟩ now
      = Except.error GoPanic.impossibleTransition := by
  simp [InMemoryTaskRegistry.updateStatus, InMemoryTaskRegistry.get, hmem, hst,
    InMemoryTaskRegistry.handleTaskFinished, Except.map]

/-- C4 witness: the pending task "T5" receiving FINISHED. -/
theorem pending_finished_panics_witness :
    regDup.taskRegistry "t1" = some (sampleTask "t1" "pk1" StateType.pending)
    ∧ regDup.updateStatus ⟨"t1", MesosTaskState.finished, none⟩ 1
        = Except.error GoPanic.impossibleTransition :=
  ⟨rfl, pending_finished_panics regDup "t1" (sampleTask "t1" "pk1" StateType.pending)
      none 1 rfl rfl⟩

/-- Registry holding the already-Finished task "TF" (capacity-3 ring). -/
def regFin : InMemoryTaskRegistry :=
  ((NewInMemoryTaskRegistry 3).register (sampleTask "TF" "pkF" StateType.finished) none).1

/-- C10: a FAILED, KILLED or LOST status for a task whose state is Finished
returns the registry value — both tables, the ring, and the task — unchanged. -/
theorem finished_abnormal_noop (k : InMemoryTaskRegistry)
    (id : String) (t : PodTask) (st : MesosTaskState) (d : Option (Option PodInfo))
    (now : Nat)
    (hmem : k.taskRegistry id = some t) (hst : t.State = StateType.finished)
    (habn : st = MesosTaskState.failed ∨ st = MesosTaskState.killed
      ∨ st = MesosTaskState.lost) :
    k.updateStatus ⟨id, st, d⟩ now = Except.ok (k, some t, StateType.finished) := by
  rcases habn with h | h | h <;> subst h <;>
    simp [InMemoryTaskRegistry.updateStatus, InMemoryTaskRegistry.get, hmem, hst,
      InMemoryTaskRegistry.handleTaskFailed, InMemoryTaskRegistry.handleTaskKilled,
      InMemoryTaskRegistry.handleTaskLost, Except.map]

/-- C10 witness: FAILED delivered to the finished task "TF". -/
theorem finished_abnormal_noop_witness :
    regFin.taskRegistry "TF" = some (sampleTask "TF" "pkF" StateType.finished)
    ∧ regFin.updateStatus ⟨"TF", MesosTaskState.failed, none⟩ 5
        = Except.ok (regFin, some (sampleTask "TF" "pkF" StateType.finished),
            StateType.finished) :=
  ⟨rfl, finished_abnormal_noop regFin "TF" (sampleTask "TF" "pkF" StateType.finished)
      MesosTaskState.failed none 5 rfl rfl (Or.inl rfl)⟩

/-- C6: a RUNNING status for a Pending task always transitions it to Running
with pod phase set to Running; the pod-info map and pod-IP are untouched when
the data blob is absent or undecodable; and the pod-IP is copied exactly when
the decoded pod-info holds a container named "net" with a non-empty PodIP. -/
theorem running_fills_pod_info (k : InMemoryTaskRegistry)
    (id : String) (t : PodTask) (d : Option (Option PodInfo)) (now : Nat)
    (hmem : k.taskRegistry id = some t) (hst : t.State = StateType.pending) :
    ∃ t' : PodTask,
      k.updateStatus ⟨id, MesosTaskState.running, d⟩ now
        = Except.ok ({ k with taskRegistry := mapInsert k.taskRegistry id t' },
            some t', StateType.pending)
      ∧ t'.State = StateType.running
      ∧ t'.Pod.Status.Phase = PodPhase.podRunning
      ∧ ((d = none ∨ d = some none) →
          t'.Pod.Status.Info = t.Pod.Status.Info
          ∧ t'.Pod.Status.PodIP = t.Pod.Status.PodIP)
      ∧ (∀ info, d = some (some info) → t'.Pod.Status.Info = info)
      ∧ (∀ info ci, d = some (some info) →
          (info.find? (fun p => p.1 = "net")).map Prod.snd = some ci → ci.PodIP ≠ "" →
          t'.Pod.Status.PodIP = ci.PodIP)
      ∧ (∀ info ci, d = some (some info) →
          (info.find? (fun p => p.1 = "net")).map Prod.snd = some ci → ci.PodIP = "" →
          t'.Pod.Status.PodIP = t.Pod.Status.PodIP)
      ∧ (∀ info, d = some (some info) →
          (info.find? (fun p => p.1 = "net")).map Prod.snd = none →
          t'.Pod.Status.PodIP = t.Pod.Status.PodIP) := by
  refine ⟨{ fillRunningPodInfo { t with UpdatedTime := now } ⟨id, MesosTaskState.running, d⟩
      with State := StateType.running }, ?_, rfl, ?_, ?_, ?_, ?_, ?_, ?_⟩
  · simp [InMemoryTaskRegistry.updateStatus, InMemoryTaskRegistry.get, hmem, hst,
      InMemoryTaskRegistry.handleTaskRunning, Except.map]
  · rcases d with _ | d'
    · simp [fillRunningPodInfo]
    · rcases d' with _ | info
      · simp [fillRunningPodInfo]
      · simp only [fillRunningPodInfo]
        cases hf : (info.find? (fun p => p.1 = "net")).map Prod.snd with
        | none => simp [hf]
        | some ci =>
          by_cases hip : ci.PodIP = "" <;> simp [hf, hip]
  · rintro (rfl | rfl) <;> exact ⟨rfl, rfl⟩
  · rintro info rfl
    simp only [fillRunningPodInfo]
    cases hf : (info.find? (fun p => p.1 = "net")).map Prod.snd with
    | none => simp [hf]
    | some ci =>
      by_cases hip : ci.PodIP = "" <;> simp [hf, hip]
  · rintro info ci rfl hf hip
    simp [fillRunningPodInfo, hf, hip]
  · rintro info ci rfl hf hip
    simp [fillRunningPodInfo, hf, hip]
  · rintro info rfl hf
    simp [fillRunningPodInfo, hf]

/-- The pod-info payload of scenario 1 of the spec. -/
def netInfo : PodInfo := [("net", ⟨"10.0.0.7"⟩)]

/-- Registry holding the pending task "T1" for pod key "/pods/ns/a". -/
def regRun : InMemoryTaskRegistry :=
  ((NewInMemoryTaskRegistry 3).register
    (sampleTask "T1" "/pods/ns/a" StateType.pending) none).1

/-- C6 witness: a RUNNING status with a decodable blob holding a "net"
container with PodIP 10.0.0.7, delivered to the pending task "T1". -/
theorem running_fills_pod_info_witness :
    regRun.taskRegistry "T1" = some (sampleTask "T1" "/pods/ns/a" StateType.pending)
    ∧ ∃ t' : PodTask,
        regRun.updateStatus ⟨"T1", MesosTaskState.running, some (some netInfo)⟩ 1
          = Except.ok
              ({ regRun with taskRegistry := mapInsert regRun.taskRegistry "T1" t' },
                some t', StateType.pending)
        ∧ t'.State = StateType.running
        ∧ t'.Pod.Status.Phase = PodPhase.podRunning
        ∧ ((some (some netInfo) = (none : Option (Option PodInfo))
              ∨ some (some netInfo) = some none) →
            t'.Pod.Status.Info
                = (sampleTask "T1" "/pods/ns/a" StateType.pending).Pod.Status.Info
            ∧ t'.Pod.Status.PodIP
                = (sampleTask "T1" "/pods/ns/a" StateType.pending).Pod.Status.PodIP)
        ∧ (∀ info, some (some netInfo) = some (some info) → t'.Pod.Status.Info = info)
        ∧ (∀ info ci, some (some netInfo) = some (some info) →
            (info.find? (fun p => p.1 = "net")).map Prod.snd = some ci → ci.PodIP ≠ "" →
            t'.Pod.Status.PodIP = ci.PodIP)
        ∧ (∀ info ci, some (some netInfo) = some (some info) →
            (info.find? (fun p => p.1 = "net")).map Prod.snd = some ci → ci.PodIP = "" →
            t'.Pod.Status.PodIP
              = (sampleTask "T1" "/pods/ns/a" StateType.pending).Pod.Status.PodIP)
        ∧ (∀ info, some (some netInfo) = some (some info) →
            (info.find? (fun p => p.1 = "net")).map Prod.snd = none →
            t'.Pod.Status.PodIP
              = (sampleTask "T1" "/pods/ns/a" StateType.pending).Pod.Status.PodIP) :=
  ⟨rfl, running_fills_pod_info regRun "T1"
    (sampleTask "T1" "/pods/ns/a" StateType.pending) (some (some netInfo)) 1 rfl rfl⟩

/-- Rank of a task state along the normal lifecycle order
Pending < Running < Finished. -/
def stateRank : StateType → Nat
  | StateType.pending => 0
  | StateType.running => 1
  | StateType.finished => 2
  | StateType.unknown => 3

/-- recordFinishedTask never rebinds a task-id: an entry of the resulting task
table was already present, with the same value, before the call. -/
theorem recordFinishedTask_lookup (S : InMemoryTaskRegistry) (x id : String)
    (v : PodTask) (h : (S.recordFinishedTask x).taskRegistry id = some v) :
    S.taskRegistry id = some v := by
  unfold InMemoryTaskRegistry.recordFinishedTask at h
  dsimp only at h
  split at h
  · split at h
    · split at h
      · simp only [mapDelete] at h
        split at h
        · exact Option.noConfusion h
        · exact h
      · exact h
    · exact h
  · exact h

/-- One updateStatus step, per task-id: each entry of the resulting task table
either kept its prior value, or is gone, or advanced from its prior value
without decreasing in rank. -/
theorem updateStatus_frame (k : InMemoryTaskRegistry) (s : TaskStatus) (now : Nat)
    (res : InMemoryTaskRegistry × Option PodTask × StateType)
    (hrun : k.updateStatus s now = Except.ok res) (id : String) :
    res.1.taskRegistry id = k.taskRegistry id
    ∨ res.1.taskRegistry id = none
    ∨ (∃ u u', k.taskRegistry id = some u ∧ res.1.taskRegistry id = some u'
        ∧ stateRank u.State ≤ stateRank u'.State) := by
  obtain ⟨tid, st, d⟩ := s
  cases hk : k.taskRegistry tid with
  | none =>
    cases st with
    | running =>
      simp only [InMemoryTaskRegistry.updateStatus, InMemoryTaskRegistry.get, hk,
        InMemoryTaskRegistry.handleTaskRunning, Except.map] at hrun
      exact Except.noConfusion hrun
    | staging =>
      simp only [InMemoryTaskRegistry.updateStatus, InMemoryTaskRegistry.get, hk,
        InMemoryTaskRegistry.handleTaskStaging, Except.map] at hrun
      injection hrun with h
      exact Or.inl (congrArg (fun z => z.1.taskRegistry id) h).symm
    | starting =>
      simp only [InMemoryTaskRegistry.updateStatus, InMemoryTaskRegistry.get, hk,
        InMemoryTaskRegistry.handleTaskStarting, Except.map] at hrun
      injection hrun with h
      exact Or.inl (congrArg (fun z => z.1.taskRegistry id) h).symm
    | finished =>
      simp only [InMemoryTaskRegistry.updateStatus, InMemoryTaskRegistry.get, hk,
        InMemoryTaskRegistry.handleTaskFinished, Except.map] at hrun
      injection hrun with h
      exact Or.inl (congrArg (fun z => z.1.taskRegistry id) h).symm
    | failed =>
      simp only [InMemoryTaskRegistry.updateStatus, InMemoryTaskRegistry.get, hk,
        InMemoryTaskRegistry.handleTaskFailed, Except.map] at hrun
      injection hrun with h
      exact Or.inl (congrArg (fun z => z.1.taskRegistry id) h).symm
    | killed =>
      simp only [InMemoryTaskRegistry.updateStatus, InMemoryTaskRegistry.get, hk,
        InMemoryTaskRegistry.handleTaskKilled, Except.map] at hrun
      injection hrun with h
      exact Or.inl (congrArg (fun z => z.1.taskRegistry id) h).symm
    | lost =>
      simp only [InMemoryTaskRegistry.updateStatus, InMemoryTaskRegistry.get, hk,
        InMemoryTaskRegistry.handleTaskLost, Except.map] at hrun
      injection hrun with h
      exact Or.inl (congrArg (fun z => z.1.taskRegistry id) h).symm
  | some u =>
    cases st with
    | staging =>
      simp only [InMemoryTaskRegistry.updateStatus, InMemoryTaskRegistry.get, hk,
        InMemoryTaskRegistry.handleTaskStaging, Except.map] at hrun
      injection hrun with h
      exact Or.inl (congrArg (fun z => z.1.taskRegistry id) h).symm
    | starting =>
      cases hu : u.State with
      | pending =>
        simp only [InMemoryTaskRegistry.updateStatus, InMemoryTaskRegistry.get, hk, hu,
          InMemoryTaskRegistry.handleTaskStarting, Except.map] at hrun
        injection hrun with h
        have hreg := congrArg (fun z => z.1.taskRegistry id) h
        dsimp only at hreg
        by_cases hid : id = tid
        · subst hid
          simp only [mapInsert, if_pos rfl] at hreg
          refine Or.inr (Or.inr ⟨u, _, hk, hreg.symm, ?_⟩)
          show stateRank u.State ≤ stateRank StateType.pending
          rw [hu]
        · simp only [mapInsert, if_neg hid] at hreg
          exact Or.inl hreg.symm
      | running =>
        simp only [InMemoryTaskRegistry.updateStatus, InMemoryTaskRegistry.get, hk, hu,
          InMemoryTaskRegistry.handleTaskStarting, Except.map] at hrun
        injection hrun with h
        exact Or.inl (congrArg (fun z => z.1.taskRegistry id) h).symm
      | finished =>
        simp only [InMemoryTaskRegistry.updateStatus, InMemoryTaskRegistry.get, hk, hu,
          InMemoryTaskRegistry.handleTaskStarting, Except.map] at hrun
        injection hrun with h
        exact Or.inl (congrArg (fun z => z.1.taskRegistry id) h).symm
      | unknown =>
        simp only [InMemoryTaskRegistry.updateStatus, InMemoryTaskRegistry.get, hk, hu,
          InMemoryTaskRegistry.handleTaskStarting, Except.map] at hrun
        injection hrun with h
        exact Or.inl (congrArg (fun z => z.1.taskRegistry id) h).symm
    | running =>
      cases hu : u.State with
      | pending =>
        simp only [InMemoryTaskRegistry.updateStatus, InMemoryTaskRegistry.get, hk, hu,
          InMemoryTaskRegistry.handleTaskRunning, Except.map] at hrun
        injection hrun with h
        have hreg := congrArg (fun z => z.1.taskRegistry id) h
        dsimp only at hreg
        by_cases hid : id = tid
        · subst hid
          simp only [mapInsert, if_pos rfl] at hreg
          refine Or.inr (Or.inr ⟨u, _, hk, hreg.symm, ?_⟩)
          show stateRank u.State ≤ stateRank StateType.running
          rw [hu]
          decide
        · simp only [mapInsert, if_neg hid] at hreg
          exact Or.inl hreg.symm
      | running =>
        simp only [InMemoryTaskRegistry.updateStatus, InMemoryTaskRegistry.get, hk, hu,
          InMemoryTaskRegistry.handleTaskRunning, Except.map] at hrun
        injection hrun with h
        have hreg := congrArg (fun z => z.1.taskRegistry id) h
        dsimp only at hreg
        by_cases hid : id = tid
        · subst hid
          simp only [mapInsert, if_pos rfl] at hreg
          refine Or.inr (Or.inr ⟨u, _, hk, hreg.symm, ?_⟩)
          show stateRank u.State ≤ stateRank StateType.running
          rw [hu]
        · simp only [mapInsert, if_neg hid] at hreg
          exact Or.inl hreg.symm
      | finished =>
        simp only [InMemoryTaskRegistry.updateStatus, InMemoryTaskRegistry.get, hk, hu,
          InMemoryTaskRegistry.handleTaskRunning, Except.map] at hrun
        injection hrun with h
        exact Or.inl (congrArg (fun z => z.1.taskRegistry id) h).symm
      | unknown =>
        simp only [InMemoryTaskRegistry.updateStatus, InMemoryTaskRegistry.get, hk, hu,
          InMemoryTaskRegistry.handleTaskRunning, Except.map] at hrun
        injection hrun with h
        exact Or.inl (congrArg (fun z => z.1.taskRegistry id) h).symm
    | finished =>
      cases hu : u.State with
      | pending =>
        simp only [InMemoryTaskRegistry.updateStatus, InMemoryTaskRegistry.get, hk, hu,
          InMemoryTaskRegistry.handleTaskFinished, Except.map] at hrun
        exact Except.noConfusion hrun
      | running =>
        simp only [InMemoryTaskRegistry.updateStatus, InMemoryTaskRegistry.get, hk, hu,
          InMemoryTaskRegistry.handleTaskFinished, Except.map] at hrun
        injection hrun with h
        have hreg := congrArg (fun z => z.1.taskRegistry id) h
        dsimp only at hreg
        cases hx : res.1.taskRegistry id with
        | none => exact Or.inr (Or.inl rfl)
        | some v =>
          have hb := hreg.trans hx
          have hk2 := recordFinishedTask_lookup _ _ _ _ hb
          dsimp only at hk2
          by_cases hid : id = tid
          · subst hid
            simp [mapInsert] at hk2
            refine Or.inr (Or.inr ⟨u, v, hk, rfl, ?_⟩)
            rw [← hk2]
            show stateRank u.State ≤ stateRank StateType.finished
            rw [hu]
            decide
          · simp only [mapInsert, if_neg hid] at hk2
            exact Or.inl hk2.symm
      | finished =>
        simp only [InMemoryTaskRegistry.updateStatus, InMemoryTaskRegistry.get, hk, hu,
          InMemoryTaskRegistry.handleTaskFinished, Except.map] at hrun
        injection hrun with h
        exact Or.inl (congrArg (fun z => z.1.taskRegistry id) h).symm
      | unknown =>
        simp only [InMemoryTaskRegistry.updateStatus, InMemoryTaskRegistry.get, hk, hu,
          InMemoryTaskRegistry.handleTaskFinished, Except.map] at hrun
        injection hrun with h
        exact Or.inl (congrArg (fun z => z.1.taskRegistry id) h).symm
    | failed =>
      cases hu : u.State with
      | pending =>
        simp only [InMemoryTaskRegistry.updateStatus, InMemoryTaskRegistry.get, hk, hu,
          InMemoryTaskRegistry.handleTaskFailed, Except.map] at hrun
        injection hrun with h
        have hreg := congrArg (fun z => z.1.taskRegistry id) h
        dsimp only at hreg
        by_cases hid : id = u.ID
        · simp only [mapDelete, if_pos hid] at hreg
          exact Or.inr (Or.inl hreg.symm)
        · simp only [mapDelete, if_neg hid] at hreg
          exact Or.inl hreg.symm
      | running =>
        simp only [InMemoryTaskRegistry.updateStatus, InMemoryTaskRegistry.get, hk, hu,
          InMemoryTaskRegistry.handleTaskFailed, Except.map] at hrun
        injection hrun with h
        have hreg := congrArg (fun z => z.1.taskRegistry id) h
        dsimp only at hreg
        by_cases hid : id = u.ID
        · simp only [mapDelete, if_pos hid] at hreg
          exact Or.inr (Or.inl hreg.symm)
        · simp only [mapDelete, if_neg hid] at hreg
          exact Or.inl hreg.symm
      | finished =>
        simp only [InMemoryTaskRegistry.updateStatus, InMemoryTaskRegistry.get, hk, hu,
          InMemoryTaskRegistry.handleTaskFailed, Except.map] at hrun
        injection hrun with h
        exact Or.inl (congrArg (fun z => z.1.taskRegistry id) h).symm
      | unknown =>
        simp only [InMemoryTaskRegistry.updateStatus, InMemoryTaskRegistry.get, hk, hu,
          InMemoryTaskRegistry.handleTaskFailed, Except.map] at hrun
        injection hrun with h
        exact Or.inl (congrArg (fun z => z.1.taskRegistry id) h).symm
    | killed =>
      cases hu : u.State with
      | pending =>
        simp only [InMemoryTaskRegistry.updateStatus, InMemoryTaskRegistry.get, hk, hu,
          InMemoryTaskRegistry.handleTaskKilled, Except.map] at hrun
        injection hrun with h
        have hreg := congrArg (fun z => z.1.taskRegistry id) h
        dsimp only at hreg
        by_cases hid : id = u.ID
        · simp only [mapDelete, if_pos hid] at hreg
          exact Or.inr (Or.inl hreg.symm)
        · simp only [mapDelete, if_neg hid] at hreg
          exact Or.inl hreg.symm
      | running =>
        simp only [InMemoryTaskRegistry.updateStatus, InMemoryTaskRegistry.get, hk, hu,
          InMemoryTaskRegistry.handleTaskKilled, Except.map] at hrun
        injection hrun with h
        have hreg := congrArg (fun z => z.1.taskRegistry id) h
        dsimp only at hreg
        by_cases hid : id = u.ID
        · simp only [mapDelete, if_pos hid] at hreg
          exact Or.inr (Or.inl hreg.symm)
        · simp only [mapDelete, if_neg hid] at hreg
          exact Or.inl hreg.symm
      | finished =>
        simp only [InMemoryTaskRegistry.updateStatus, InMemoryTaskRegistry.get, hk, hu,
          InMemoryTaskRegistry.handleTaskKilled, Except.map] at hrun
        injection hrun with h
        exact Or.inl (congrArg (fun z => z.1.taskRegistry id) h).symm
      | unknown =>
        simp only [InMemoryTaskRegistry.updateStatus, InMemoryTaskRegistry.get, hk, hu,
          InMemoryTaskRegistry.handleTaskKilled, Except.map] at hrun
        injection hrun with h
        exact Or.inl (congrArg (fun z => z.1.taskRegistry id) h).symm
    | lost =>
      cases hu : u.State with
      | pending =>
        simp only [InMemoryTaskRegistry.updateStatus, InMemoryTaskRegistry.get, hk, hu,
          InMemoryTaskRegistry.handleTaskLost, Except.map] at hrun
        injection hrun with h
        have hreg := congrArg (fun z => z.1.taskRegistry id) h
        dsimp only at hreg
        by_cases hid : id = u.ID
        · simp only [mapDelete, if_pos hid] at hreg
          exact Or.inr (Or.inl hreg.symm)
        · simp only [mapDelete, if_neg hid] at hreg
          exact Or.inl hreg.symm
      | running =>
        simp only [InMemoryTaskRegistry.updateStatus, InMemoryTaskRegistry.get, hk, hu,
          InMemoryTaskRegistry.handleTaskLost, Except.map] at hrun
        injection hrun with h
        have hreg := congrArg (fun z => z.1.taskRegistry id) h
        dsimp only at hreg
        by_cases hid : id = u.ID
        · simp only [mapDelete, if_pos hid] at hreg
          exact Or.inr (Or.inl hreg.symm)
        · simp only [mapDelete, if_neg hid] at hreg
          exact Or.inl hreg.symm
      | finished =>
        simp only [InMemoryTaskRegistry.updateStatus, InMemoryTaskRegistry.get, hk, hu,
          InMemoryTaskRegistry.handleTaskLost, Except.map] at hrun
        injection hrun with h
        exact Or.inl (congrArg (fun z => z.1.taskRegistry id) h).symm
      | unknown =>
        simp only [InMemoryTaskRegistry.updateStatus, InMemoryTaskRegistry.get, hk, hu,
          InMemoryTaskRegistry.handleTaskLost, Except.map] at hrun
        injection hrun with h
        exact Or.inl (congrArg (fun z => z.1.taskRegistry id) h).symm

/-- Sequence version of the frame property: over any successful run of status
updates, each entry of the task table kept its value, disappeared, or advanced
without decreasing in rank. -/
theorem runUpdates_frame (msgs : List (TaskStatus × Nat)) :
    ∀ (k k' : InMemoryTaskRegistry), runUpdates k msgs = Except.ok k' →
    ∀ id, k'.taskRegistry id = k.taskRegistry id
      ∨ k'.taskRegistry id = none
      ∨ (∃ u u', k.taskRegistry id = some u ∧ k'.taskRegistry id = some u'
          ∧ stateRank u.State ≤ stateRank u'.State) := by
  induction msgs with
  | nil =>
    intro k k' h id
    injection h with h
    subst h
    exact Or.inl rfl
  | cons m rest ih =>
    intro k k' h id
    unfold runUpdates at h
    cases hstep : k.updateStatus m.1 m.2 with
    | error e =>
      rw [hstep] at h
      exact Except.noConfusion h
    | ok p =>
      rw [hstep] at h
      have h1 := updateStatus_frame k m.1 m.2 p hstep id
      have h2 := ih p.1 k' h id
      rcases h2 with h2 | h2 | ⟨a, b, ha, hb, hab⟩
      · rcases h1 with h1 | h1 | ⟨c, c', hc, hc', hcc⟩
        · exact Or.inl (h2.trans h1)
        · exact Or.inr (Or.inl (h2.trans h1))
        · exact Or.inr (Or.inr ⟨c, c', hc, h2.trans hc', hcc⟩)
      · exact Or.inr (Or.inl h2)
      · rcases h1 with h1 | h1 | ⟨c, c', hc, hc', hcc⟩
        · exact Or.inr (Or.inr ⟨a, b, h1.symm.trans ha, hb, hab⟩)
        · exact absurd (h1.symm.trans ha) (by simp)
        · have hca : c' = a := by
            have := hc'.symm.trans ha
            exact Option.some.injEq _ _ ▸ this
          refine Or.inr (Or.inr ⟨c, b, hc, hb, le_trans ?_ hab⟩)
          rw [← hca]
          exact hcc

/-- C7: across any successful sequence of updateStatus calls, a task present
in the registry before and after never regresses along the order
Pending < Running < Finished (removal does not count as a regression). -/
theorem updateStatus_monotone (k : InMemoryTaskRegistry)
    (msgs : List (TaskStatus × Nat)) (k' : InMemoryTaskRegistry)
    (hrun : runUpdates k msgs = Except.ok k')
    (id : String) (t t' : PodTask)
    (hb : k.taskRegistry id = some t) (ha : k'.taskRegistry id = some t') :
    stateRank t.State ≤ stateRank t'.State := by
  rcases runUpdates_frame msgs k k' hrun id with h | h | ⟨a, b, hA, hB, hAB⟩
  · have hts : some t' = some t := ha.symm.trans (h.trans hb)
    have : t' = t := by injection hts
    rw [this]
  · exact absurd (h.symm.trans ha) (by simp)
  · have h1 : a = t := by
      have := hA.symm.trans hb
      injection this
    have h2 : b = t' := by
      have := hB.symm.trans ha
      injection this
    rw [← h1, ← h2]
    exact hAB

/-- The pending task used by the monotonicity witness. -/
def taskA : PodTask := sampleTask "A" "pkA" StateType.pending

/-- Registry holding taskA (capacity-2 ring). -/
def regSeq : InMemoryTaskRegistry :=
  ((NewInMemoryTaskRegistry 2).register taskA none).1

/-- taskA after a RUNNING status at tick 1 with no data blob. -/
def taskA2 : PodTask :=
  ⟨"A", "pkA", ⟨"A", ⟨PodPhase.podRunning, [], ""⟩⟩, StateType.running, 0, 0, 1, false⟩

/-- regSeq after that RUNNING status. -/
def regSeqAfter : InMemoryTaskRegistry :=
  { regSeq with taskRegistry := mapInsert regSeq.taskRegistry "A" taskA2 }

/-- C7 witness: one RUNNING message for the pending task "A" advances its rank. -/
theorem updateStatus_monotone_witness :
    runUpdates regSeq [(⟨"A", MesosTaskState.running, none⟩, 1)] = Except.ok regSeqAfter
    ∧ regSeq.taskRegistry "A" = some taskA
    ∧ regSeqAfter.taskRegistry "A" = some taskA2
    ∧ stateRank taskA.State ≤ stateRank taskA2.State :=
  ⟨rfl, rfl, rfl,
    updateStatus_monotone regSeq [(⟨"A", MesosTaskState.running, none⟩, 1)] regSeqAfter
      rfl "A" taskA taskA2 rfl rfl⟩

/-- Contents of slot i after writing the ids of l, in order, into a fresh
capacity-c ring starting at cursor 0 (record j lands in slot j % c). -/
def slotVal (c : Nat) (l : List String) (i : Nat) : Option String :=
  if i = 0 then (if l.length = c then l[c-1]? else none)
  else l[i-1]?

/-- The slot list after writing the ids of l into a fresh capacity-c ring. -/
def fillData (c : Nat) (l : List String) : List (Option String) :=
  (List.range c).map (slotVal c l)

theorem fillData_length (c : Nat) (l : List String) : (fillData c l).length = c := by
  simp [fillData]

theorem fillData_getElem (c : Nat) (l : List String) (i : Nat) (h : i < c) :
    (fillData c l)[i]? = some (slotVal c l i) := by
  rw [fillData, List.getElem?_map, List.getElem?_range h]
  rfl

theorem fillData_nil (c : Nat) (hc : 0 < c) : fillData c [] = List.replicate c none := by
  rw [List.eq_replicate_iff]
  refine ⟨fillData_length c [], ?_⟩
  intro b hb
  rcases List.mem_map.mp hb with ⟨i, hi, rfl⟩
  by_cases h0 : i = 0
  · subst h0
    show slotVal c [] 0 = none
    unfold slotVal
    rw [if_pos rfl, if_neg (show ([] : List String).length ≠ c by
      simp only [List.length_nil]
      omega)]
  · show slotVal c [] i = none
    unfold slotVal
    rw [if_neg h0]
    simp

theorem fillData_getD_next (c : Nat) (q : List String) (hq : q.length < c) :
    (fillData c q).getD ((q.length + 1) % c) none = none := by
  have hc : 0 < c := Nat.lt_of_le_of_lt (Nat.zero_le _) hq
  have hslot : (q.length + 1) % c < c := Nat.mod_lt _ hc
  rw [List.getD_eq_getElem?_getD, fillData_getElem c q _ hslot, Option.getD_some]
  by_cases h0 : (q.length + 1) % c = 0
  · rw [h0]
    show slotVal c q 0 = none
    unfold slotVal
    rw [if_pos rfl, if_neg (Nat.ne_of_lt hq)]
  · have hlt : q.length + 1 < c := by
      rcases Nat.lt_or_ge (q.length + 1) c with h | h
      · exact h
      · exfalso
        have heq : q.length + 1 = c := by omega
        rw [heq, Nat.mod_self] at h0
        exact h0 rfl
    rw [Nat.mod_eq_of_lt hlt]
    show slotVal c q (q.length + 1) = none
    unfold slotVal
    rw [if_neg (Nat.succ_ne_zero _), Nat.add_sub_cancel]
    exact List.getElem?_eq_none (le_refl _)

theorem fillData_set_append (c : Nat) (q : List String) (a : String)
    (hq : q.length + 1 ≤ c) :
    (fillData c q).set ((q.length + 1) % c) (some a) = fillData c (q ++ [a]) := by
  have hc : 0 < c := by omega
  have hslot : (q.length + 1) % c < c := Nat.mod_lt _ hc
  apply List.ext_getElem?
  intro i
  by_cases hic : i < c
  · rw [fillData_getElem c (q ++ [a]) i hic]
    by_cases hi : i = (q.length + 1) % c
    · subst hi
      rw [List.getElem?_set_eq_of_lt _ (by rw [fillData_length]; exact hslot)]
      congr 1
      by_cases hcase : q.length + 1 = c
      · rw [hcase, Nat.mod_self]
        show some a = slotVal c (q ++ [a]) 0
        unfold slotVal
        rw [if_pos rfl]
        rw [if_pos (by
          simp only [List.length_append, List.length_cons, List.length_nil]
          omega)]
        rw [List.getElem?_append_right (by omega)]
        rw [show c - 1 - q.length = 0 from by omega]
        rfl
      · have hlt : q.length + 1 < c := by omega
        rw [Nat.mod_eq_of_lt hlt]
        show some a = slotVal c (q ++ [a]) (q.length + 1)
        unfold slotVal
        rw [if_neg (Nat.succ_ne_zero _), Nat.add_sub_cancel]
        rw [List.getElem?_append_right (le_refl _)]
        rw [Nat.sub_self]
        rfl
    · rw [List.getElem?_set_ne (Ne.symm hi)]
      rw [fillData_getElem c q i hic]
      congr 1
      unfold slotVal
      by_cases h0 : i = 0
      · rw [if_pos h0, if_pos h0]
        have hqc : q.length ≠ c := by omega
        have hqac : ¬ (q ++ [a]).length = c := by
          simp only [List.length_append, List.length_cons, List.length_nil]
          intro hcon
          apply hi
          rw [h0, show q.length + 1 = c from by omega, Nat.mod_self]
        rw [if_neg hqc, if_neg hqac]
      · rw [if_neg h0, if_neg h0]
        by_cases hil : i - 1 < q.length
        · rw [List.getElem?_append]
          rw [if_pos hil]
        · have hgt : q.length < i - 1 := by
            rcases Nat.lt_or_ge q.length (i - 1) with h | h
            · exact h
            · exfalso
              have heq : i - 1 = q.length := by omega
              apply hi
              have hieq : i = q.length + 1 := by omega
              have hlt2 : q.length + 1 < c := by omega
              rw [hieq]
              exact (Nat.mod_eq_of_lt hlt2).symm
          rw [List.getElem?_eq_none (by omega : q.length ≤ i - 1)]
          rw [List.getElem?_eq_none (by
            simp only [List.length_append, List.length_cons, List.length_nil]
            omega)]
  · rw [List.getElem?_eq_none (by rw [List.length_set, fillData_length]; omega),
      List.getElem?_eq_none (by rw [fillData_length]; omega)]

/-- Writing up to c ids into a fresh capacity-c ring never evicts anything:
the task table is untouched and the ring holds the written ids. -/
theorem foldl_record_fill (c : Nat) (hc : 0 < c) :
    ∀ (l : List String), l.length ≤ c →
    ∀ (R : InMemoryTaskRegistry),
      R.tasksFinished = ⟨List.replicate c none, 0⟩ →
      List.foldl InMemoryTaskRegistry.recordFinishedTask R l
        = { R with tasksFinished := ⟨fillData c l, l.length % c⟩ } := by
  intro l
  induction l using List.reverseRecOn with
  | nil =>
    intro _ R hR
    obtain ⟨tr, tf, pt⟩ := R
    dsimp only at hR ⊢
    subst hR
    rw [fillData_nil c hc]
    simp
  | append_singleton q a ih =>
    intro hlen R hR
    have hql : q.length < c := by
      simp only [List.length_append, List.length_cons, List.length_nil] at hlen
      omega
    rw [List.foldl_append, List.foldl_cons, List.foldl_nil]
    rw [ih (Nat.le_of_lt hql) R hR]
    unfold InMemoryTaskRegistry.recordFinishedTask
    dsimp only
    rw [Nat.mod_eq_of_lt hql, fillData_length]
    rw [fillData_getD_next c q hql]
    dsimp only
    rw [fillData_set_append c q a (by omega)]
    obtain ⟨tr, tf, pt⟩ := R
    dsimp only
    simp only [List.length_append, List.length_cons, List.length_nil]

/-- recordFinishedTask when the overwritten slot holds the id of a task still
registered as Finished: that id is expunged from the task table. -/
theorem recordFinishedTask_evicts (S : InMemoryTaskRegistry) (tid gcid : String)
    (t : PodTask)
    (hslot : S.tasksFinished.data.getD
        ((S.tasksFinished.pos + 1) % S.tasksFinished.data.length) none = some gcid)
    (hmem : S.taskRegistry gcid = some t) (hst : t.State = StateType.finished) :
    (S.recordFinishedTask tid).taskRegistry = mapDelete S.taskRegistry gcid := by
  unfold InMemoryTaskRegistry.recordFinishedTask
  dsimp only
  rw [hslot]
  dsimp only
  rw [hmem]
  dsimp only
  rw [if_pos hst]

/-- recordFinishedTask either leaves the task table unchanged, or deletes
exactly the id held by the overwritten slot, which was registered as Finished. -/
theorem recordFinishedTask_cases (S : InMemoryTaskRegistry) (tid : String) :
    (S.recordFinishedTask tid).taskRegistry = S.taskRegistry
    ∨ (∃ g t, S.tasksFinished.data.getD
          ((S.tasksFinished.pos + 1) % S.tasksFinished.data.length) none = some g
        ∧ S.taskRegistry g = some t ∧ t.State = StateType.finished
        ∧ (S.recordFinishedTask tid).taskRegistry = mapDelete S.taskRegistry g) := by
  unfold InMemoryTaskRegistry.recordFinishedTask
  dsimp only
  cases hg : S.tasksFinished.data.getD
      ((S.tasksFinished.pos + 1) % S.tasksFinished.data.length) none with
  | none => exact Or.inl rfl
  | some g =>
    dsimp only
    cases hT : S.taskRegistry g with
    | none => exact Or.inl rfl
    | some t =>
      dsimp only
      by_cases hf : t.State = StateType.finished
      · rw [if_pos hf]
        exact Or.inr ⟨g, t, rfl, hT, hf, rfl⟩
      · rw [if_neg hf]
        exact Or.inl rfl

/-- C5: recording capacity + 1 distinct finished ids into a fresh ring evicts
exactly the first id from the tasks table, keeping the last capacity ids; and
a recordFinished step removes a tasks entry only when its id was held by the
overwritten slot and the task was still registered with state Finished. -/
theorem recordFinished_aging (c : Nat) (hc : 0 < c) (id0 : String)
    (rest : List String) (hlen : (id0 :: rest).length = c + 1)
    (hnd : (id0 :: rest).Nodup) (R : InMemoryTaskRegistry)
    (hring : R.tasksFinished = ⟨List.replicate c none, 0⟩)
    (hfin : ∀ id ∈ id0 :: rest, ∃ t, R.taskRegistry id = some t
      ∧ t.State = StateType.finished) :
    ((List.foldl InMemoryTaskRegistry.recordFinishedTask R (id0 :: rest)).taskRegistry id0
        = none
      ∧ ∀ id ∈ rest,
          (List.foldl InMemoryTaskRegistry.recordFinishedTask R (id0 :: rest)).taskRegistry
            id = R.taskRegistry id)
    ∧ (∀ (S : InMemoryTaskRegistry) (tid gcid : String),
        (S.recordFinishedTask tid).taskRegistry gcid ≠ S.taskRegistry gcid →
        S.tasksFinished.data.getD
            ((S.tasksFinished.pos + 1) % S.tasksFinished.data.length) none = some gcid
          ∧ ∃ t, S.taskRegistry gcid = some t ∧ t.State = StateType.finished
            ∧ (S.recordFinishedTask tid).taskRegistry gcid = none) := by
  constructor
  · rcases List.eq_nil_or_concat rest with rfl | ⟨q, a, hqa⟩
    · exfalso
      simp only [List.length_cons, List.length_nil] at hlen
      omega
    · subst hqa
      rw [List.concat_eq_append] at hlen hnd hfin ⊢
      have hfc : (id0 :: q).length = c := by
        simp only [List.length_cons, List.length_append, List.length_nil] at hlen
        simp only [List.length_cons]
        omega
      rw [← List.cons_append]
      rw [List.foldl_append, List.foldl_cons, List.foldl_nil]
      rw [foldl_record_fill c hc (id0 :: q) (le_of_eq hfc) R hring]
      rw [hfc, Nat.mod_self]
      obtain ⟨t0, ht0, hf0⟩ := hfin id0 (List.mem_cons_self id0 _)
      have hget : (fillData c (id0 :: q)).getD (1 % c) none = some id0 := by
        have hs : 1 % c < c := Nat.mod_lt _ hc
        rw [List.getD_eq_getElem?_getD, fillData_getElem c _ _ hs, Option.getD_some]
        by_cases hc1 : c = 1
        · subst hc1
          show slotVal 1 (id0 :: q) (1 % 1) = some id0
          rw [Nat.mod_self]
          unfold slotVal
          rw [if_pos rfl, if_pos hfc]
          simp
        · have h1c : 1 % c = 1 := Nat.mod_eq_of_lt (by omega)
          rw [h1c]
          unfold slotVal
          rw [if_neg (by omega)]
          simp
      have hslot : (fillData c (id0 :: q)).getD
          ((0 + 1) % (fillData c (id0 :: q)).length) none = some id0 := by
        rw [fillData_length]
        exact hget
      have hev := recordFinishedTask_evicts
        { R with tasksFinished := ⟨fillData c (id0 :: q), 0⟩ } a id0 t0 hslot ht0 hf0
      rw [hev]
      constructor
      · simp [mapDelete]
      · intro id hid
        have hne : id ≠ id0 := by
          intro h
          subst h
          exact (List.nodup_cons.mp hnd).1 hid
        simp [mapDelete, hne]
  · intro S tid gcid hne
    rcases recordFinishedTask_cases S tid with h | ⟨g, t, hg, hT, hf, hres⟩
    · exact absurd (congrFun h gcid) hne
    · by_cases hid : gcid = g
      · subst hid
        refine ⟨hg, t, hT, hf, ?_⟩
        rw [hres]
        simp [mapDelete]
      · exfalso
        apply hne
        rw [hres]
        simp [mapDelete, hid]

/-- Finished task keyed "a" for the aging witness. -/
def taskFa : PodTask := sampleTask "a" "pka" StateType.finished

/-- Finished task keyed "b" for the aging witness. -/
def taskFb : PodTask := sampleTask "b" "pkb" StateType.finished

/-- A capacity-1 registry holding the two finished tasks "a" and "b". -/
def regAging : InMemoryTaskRegistry :=
  { taskRegistry := fun q => if q = "a" then some taskFa
      else if q = "b" then some taskFb else none
    tasksFinished := ⟨[none], 0⟩
    podToTask := fun _ => none }

/-- C5 witness: capacity 1, ids ["a", "b"]: after both records "a" is evicted
from the tasks table and "b" remains. -/
theorem recordFinished_aging_witness :
    (0 < 1 ∧ (["a", "b"] : List String).Nodup
      ∧ regAging.tasksFinished = ⟨List.replicate 1 none, 0⟩)
    ∧ (((List.foldl InMemoryTaskRegistry.recordFinishedTask regAging
          ["a", "b"]).taskRegistry "a" = none
        ∧ ∀ id ∈ ["b"],
            (List.foldl InMemoryTaskRegistry.recordFinishedTask regAging
              ["a", "b"]).taskRegistry id = regAging.taskRegistry id)
      ∧ (∀ (S : InMemoryTaskRegistry) (tid gcid : String),
          (S.recordFinishedTask tid).taskRegistry gcid ≠ S.taskRegistry gcid →
          S.tasksFinished.data.getD
              ((S.tasksFinished.pos + 1) % S.tasksFinished.data.length) none = some gcid
            ∧ ∃ t, S.taskRegistry gcid = some t ∧ t.State = StateType.finished
              ∧ (S.recordFinishedTask tid).taskRegistry gcid = none)) :=
  ⟨⟨by decide, by decide, rfl⟩,
    recordFinished_aging 1 (by decide) "a" ["b"] rfl (by decide) regAging rfl
      (by
        intro id hid
        cases hid with
        | head => exact ⟨taskFa, rfl, rfl⟩
        | tail _ h =>
          cases h with
          | head => exact ⟨taskFb, rfl, rfl⟩
          | tail _ h2 => cases h2)⟩
